import Mathlib

set_option maxRecDepth 100000

/-!
Shallow embedding of `client/commands/v2/server_connection.py`.

The file models:
* `get_socket_path` (MD5-based socket path derivation, with a model of
  `pathlib.Path.resolve(strict=False)` over an explicit filesystem);
* the `connect` context manager (Python `with`-statement semantics as an
  execution trace over failure oracles);
* the `connect_in_text_mode` wrapper (UTF-8 codec with line buffering).
-/

namespace ServerConnection

/-- Python exception kinds relevant to this module: `OSError` (the
connection-class failure raised by socket operations, carrying an errno),
`UnicodeDecodeError` (the encoding-class failure raised by text-mode
decoding, carrying the offending byte position), and `RuntimeError`
(raised by `Path.resolve` on a symlink loop). -/
inductive PyError where
  | osError : Nat → PyError
  | unicodeDecodeError : Nat → PyError
  | runtimeError : PyError
deriving DecidableEq, Repr

/-! ### MD5 (model of `hashlib.md5`) -/

/-- 2^32, the word modulus of MD5. -/
def M32 : Nat := 4294967296

/-- Bitwise complement on 32-bit words represented as `Nat`. -/
def mnot (x : Nat) : Nat := x ^^^ (M32 - 1)

/-- 32-bit left rotation (input assumed `< 2^32`). -/
def rotl (x s : Nat) : Nat := ((x <<< s) % M32) ||| (x >>> (32 - s))

/-- The MD5 round constants `K[i] = floor(2^32 * abs(sin(i+1)))`. -/
def md5K : List Nat :=
  [0xd76aa478, 0xe8c7b756, 0x242070db, 0xc1bdceee,
   0xf57c0faf, 0x4787c62a, 0xa8304613, 0xfd469501,
   0x698098d8, 0x8b44f7af, 0xffff5bb1, 0x895cd7be,
   0x6b901122, 0xfd987193, 0xa679438e, 0x49b40821,
   0xf61e2562, 0xc040b340, 0x265e5a51, 0xe9b6c7aa,
   0xd62f105d, 0x02441453, 0xd8a1e681, 0xe7d3fbc8,
   0x21e1cde6, 0xc33707d6, 0xf4d50d87, 0x455a14ed,
   0xa9e3e905, 0xfcefa3f8, 0x676f02d9, 0x8d2a4c8a,
   0xfffa3942, 0x8771f681, 0x6d9d6122, 0xfde5380c,
   0xa4beea44, 0x4bdecfa9, 0xf6bb4b60, 0xbebfbc70,
   0x289b7ec6, 0xeaa127fa, 0xd4ef3085, 0x04881d05,
   0xd9d4d039, 0xe6db99e5, 0x1fa27cf8, 0xc4ac5665,
   0xf4292244, 0x432aff97, 0xab9423a7, 0xfc93a039,
   0x655b59c3, 0x8f0ccc92, 0xffeff47d, 0x85845dd1,
   0x6fa87e4f, 0xfe2ce6e0, 0xa3014314, 0x4e0811a1,
   0xf7537e82, 0xbd3af235, 0x2ad7d2bb, 0xeb86d391]

/-- The MD5 per-round left-rotation amounts. -/
def md5S : List Nat :=
  [7, 12, 17, 22, 7, 12, 17, 22, 7, 12, 17, 22, 7, 12, 17, 22,
   5, 9, 14, 20, 5, 9, 14, 20, 5, 9, 14, 20, 5, 9, 14, 20,
   4, 11, 16, 23, 4, 11, 16, 23, 4, 11, 16, 23, 4, 11, 16, 23,
   6, 10, 15, 21, 6, 10, 15, 21, 6, 10, 15, 21, 6, 10, 15, 21]

/-- The four 32-bit working registers of MD5. -/
structure MD5State where
  a : Nat
  b : Nat
  c : Nat
  d : Nat
deriving DecidableEq, Repr

/-- One of the 64 MD5 rounds, applied to the 16 message words of the
current block. -/
def md5Step (msg : List Nat) (st : MD5State) (i : Nat) : MD5State :=
  let fg : Nat × Nat :=
    if i < 16 then ((st.b &&& st.c) ||| (mnot st.b &&& st.d), i)
    else if i < 32 then ((st.d &&& st.b) ||| (mnot st.d &&& st.c), (5 * i + 1) % 16)
    else if i < 48 then (st.b ^^^ st.c ^^^ st.d, (3 * i + 5) % 16)
    else (st.c ^^^ (st.b ||| mnot st.d), (7 * i) % 16)
  let tmp : Nat := (st.a + fg.1 + md5K.getD i 0 + msg.getD fg.2 0) % M32
  { a := st.d,
    b := (st.b + rotl tmp (md5S.getD i 0)) % M32,
    c := st.b,
    d := st.c }

/-- Process one 64-byte block (given as 16 little-endian words). -/
def md5Block (st : MD5State) (words : List Nat) : MD5State :=
  let r := (List.range 64).foldl (md5Step words) st
  ⟨(st.a + r.a) % M32, (st.b + r.b) % M32, (st.c + r.c) % M32, (st.d + r.d) % M32⟩

/-- Group a byte list into 32-bit little-endian words. -/
def toLEWords : List Nat → List Nat
  | b0 :: b1 :: b2 :: b3 :: rest =>
      (b0 + b1 * 256 + b2 * 65536 + b3 * 16777216) :: toLEWords rest
  | _ => []

/-- MD5 padding: append `0x80`, zero bytes up to 56 mod 64, then the
original bit length as 8 little-endian bytes. -/
def md5Pad (msg : List Nat) : List Nat :=
  let len := msg.length
  let zeros := (119 - len % 64) % 64
  let bitLen := (8 * len) % (2 ^ 64)
  msg ++ [0x80] ++ List.replicate zeros 0 ++
    [bitLen % 256, bitLen / 256 % 256, bitLen / 65536 % 256,
     bitLen / 16777216 % 256, bitLen / 4294967296 % 256,
     bitLen / 1099511627776 % 256, bitLen / 281474976710656 % 256,
     bitLen / 72057594037927936 % 256]

/-- Split a byte list into 64-byte chunks (fuel-based structural recursion;
the fuel `n` is always at least the number of chunks). -/
def chunksAux : Nat → List Nat → List (List Nat)
  | 0, _ => []
  | _, [] => []
  | n + 1, l => l.take 64 :: chunksAux n (l.drop 64)

/-- Split a byte list into 64-byte chunks. -/
def chunks64 (l : List Nat) : List (List Nat) := chunksAux l.length l

/-- Render a 32-bit word as 4 little-endian bytes. -/
def wordLE (w : Nat) : List Nat :=
  [w % 256, w / 256 % 256, w / 65536 % 256, w / 16777216 % 256]

/-- The 16-byte MD5 digest of a byte string. -/
def md5Digest (msg : List Nat) : List Nat :=
  let init : MD5State := ⟨0x67452301, 0xefcdab89, 0x98badcfe, 0x10325476⟩
  let st := (chunks64 (md5Pad msg)).foldl (fun s b => md5Block s (toLEWords b)) init
  wordLE st.a ++ wordLE st.b ++ wordLE st.c ++ wordLE st.d

/-- The sixteen lowercase hexadecimal digits. -/
def hexAlphabet : List Char := "0123456789abcdef".data

/-- The hex digit of the low nibble of `n`. -/
def hexNibble (n : Nat) : Char := hexAlphabet.getD (n % 16) '0'

/-- Two lowercase hex digits of a byte. -/
def byteHex (b : Nat) : List Char := [hexNibble (b / 16), hexNibble b]

/-- Model of `hashlib.md5(msg).hexdigest()`: the 32-character lowercase
hexadecimal rendering of the 16-byte MD5 digest. -/
def md5HexDigest (msg : List Nat) : String :=
  String.mk ((md5Digest msg).flatMap byteHex)

/-! ### UTF-8 encoding (model of `str.encode("utf-8")`) -/

/-- UTF-8 encoding of a single character (1 to 4 bytes). -/
def utf8EncodeChar (c : Char) : List Nat :=
  let n := c.toNat
  if n < 0x80 then [n]
  else if n < 0x800 then [0xC0 + n / 64, 0x80 + n % 64]
  else if n < 0x10000 then
    [0xE0 + n / 4096, 0x80 + n / 64 % 64, 0x80 + n % 64]
  else
    [0xF0 + n / 262144, 0x80 + n / 4096 % 64, 0x80 + n / 64 % 64, 0x80 + n % 64]

/-- Model of `s.encode("utf-8")`: the UTF-8 byte sequence of a string. -/
def utf8Encode (s : String) : List Nat := s.data.flatMap utf8EncodeChar

/-! ### `pathlib` model

`get_socket_path` calls `log_directory.resolve(strict=False)`, whose result
depends on the state of the filesystem (symlinks and the current working
directory).  The filesystem is modelled explicitly as a finite map from
absolute paths (component lists) to entries; `resolve(strict=False)` is the
POSIX non-strict resolution used by `pathlib`: walk the components left to
right, skip empty and dot components, strip the last resolved component on
a dotdot component, follow symlinks recursively where present, and keep
nonexistent components literally.  Symlink loops raise `RuntimeError`
(modelled by fuel exhaustion). -/

/-- A `pathlib.Path` value: an absolute/relative flag and its components. -/
structure PyPath where
  absolute : Bool
  parts : List String
deriving DecidableEq, Repr

/-- A filesystem entry: a real directory, or a symbolic link to a path. -/
inductive FsEntry where
  | directory : FsEntry
  | symlink : PyPath → FsEntry
deriving DecidableEq, Repr

/-- A filesystem state: a finite map from absolute paths (component lists)
to entries, plus the current working directory. -/
structure Fs where
  entries : List (List String × FsEntry)
  cwd : List String
deriving DecidableEq, Repr

/-- `os.readlink`: the target of the symlink at `p`, or `none` when `p`
is not a symlink (including when `p` does not exist). -/
def Fs.readlink (fs : Fs) (p : List String) : Option PyPath :=
  match fs.entries.lookup p with
  | some (FsEntry.symlink t) => some t
  | _ => none

/-- Whether the filesystem contains any symlink entry. -/
def Fs.hasSymlink (fs : Fs) : Bool :=
  fs.entries.any (fun e =>
    match e.2 with
    | FsEntry.symlink _ => true
    | FsEntry.directory => false)

/-- `os.mkdir`: record a directory at path `p`. -/
def Fs.createDir (fs : Fs) (p : List String) : Fs :=
  { fs with entries := (p, FsEntry.directory) :: fs.entries }

/-- The component walk of POSIX non-strict resolution (`_PosixFlavour.resolve`
with `strict=False`): `acc` is the already-resolved absolute prefix, the
third list the components still to process.  Fuel exhaustion models the
`RuntimeError` that `pathlib` raises on a symlink loop. -/
def resolveParts (fs : Fs) : Nat → List String → List String → Except PyError (List String)
  | 0, _, _ => Except.error PyError.runtimeError
  | _ + 1, acc, [] => Except.ok acc
  | fuel + 1, acc, name :: rest =>
    if name = "" || name = "." then resolveParts fs fuel acc rest
    else if name = ".." then resolveParts fs fuel acc.dropLast rest
    else
      match fs.readlink (acc ++ [name]) with
      | none => resolveParts fs fuel (acc ++ [name]) rest
      | some t =>
        match resolveParts fs fuel (if t.absolute then [] else acc) t.parts with
        | Except.error e => Except.error e
        | Except.ok acc2 => resolveParts fs fuel acc2 rest

/-- Total size of all symlink targets, used to bound the resolution fuel. -/
def symlinkTargetSizes (fs : Fs) : Nat :=
  fs.entries.foldr
    (fun e a =>
      (match e.2 with
       | FsEntry.symlink t => t.parts.length + 1
       | FsEntry.directory => 0) + a) 0

/-- Fuel bound for non-strict resolution; always at least
`p.parts.length + 1`, which suffices on symlink-free filesystems. -/
def resolveFuel (fs : Fs) (p : PyPath) : Nat :=
  (p.parts.length + 1) * (fs.entries.length + 1) *
    (symlinkTargetSizes fs + fs.entries.length + 2)

/-- Model of `p.resolve(strict=False)` as a component list: relative paths
are resolved against the current working directory. -/
def resolveNonStrict (fs : Fs) (p : PyPath) : Except PyError (List String) :=
  resolveParts fs (resolveFuel fs p) (if p.absolute then [] else fs.cwd) p.parts

/-- The string form of a resolved (absolute) component list, as rendered by
`str(...)` on the resolved path: slash-separated, `"/"` when empty. -/
def renderAbsolute (comps : List String) : String :=
  if comps.isEmpty then "/" else comps.foldl (fun a c => a ++ "/" ++ c) ""

/-- Model of `str(p.resolve(strict=False))`. -/
def resolveStr (fs : Fs) (p : PyPath) : Except PyError String :=
  (resolveNonStrict fs p).map renderAbsolute

/-! ### `get_socket_path` -/

/-- Embedding of `get_socket_path(root, log_directory)`: hash the UTF-8
bytes of the canonicalized string form of `log_directory` with MD5, and
join `root` with `pyre_server_<hexdigest>.sock`.  `root` is used verbatim
(the `/` operator of `pathlib`), never canonicalized. -/
def get_socket_path (fs : Fs) (root : String) (log_directory : PyPath) :
    Except PyError String :=
  match resolveStr fs log_directory with
  | Except.error e => Except.error e
  | Except.ok s =>
      Except.ok (root ++ "/" ++ ("pyre_server_" ++ md5HexDigest (utf8Encode s) ++ ".sock"))

/-- The final path component produced by `get_socket_path`, independent of
`root`. -/
def socketFileName (fs : Fs) (log_directory : PyPath) : Except PyError String :=
  (resolveStr fs log_directory).map
    (fun s => "pyre_server_" ++ md5HexDigest (utf8Encode s) ++ ".sock")

/-! ### `connect` (lifecycle model)

`connect` is a `contextlib.contextmanager`:

```
with socket.socket(socket.AF_UNIX, socket.SOCK_STREAM) as client_socket:
    client_socket.connect(str(socket_path))
    with client_socket.makefile(mode="rb") as input_channel, \
         client_socket.makefile(mode="wb") as output_channel:
        yield (input_channel, output_channel)
```

Its lifecycle is modelled as an execution trace over a failure oracle: each
OS-level operation (socket creation, connect, the two `makefile` calls, the
three closes run by the nested `with` exits) either succeeds or raises an
`OSError` with a given errno, and the caller body either completes or
raises.  Python `with` semantics: `__exit__` runs on every exit from the
block, and an exception raised by `__exit__` replaces the one in flight. -/

/-- Observable events of one `connect` (or `connect_in_text_mode`) call. -/
inductive Ev where
  | sockCreate : Ev
  | sockConnect : Ev
  | mkInput : Ev
  | mkOutput : Ev
  | wrapText : Ev
  | body : Ev
  | closeOutput : Ev
  | closeInput : Ev
  | closeSocket : Ev
deriving DecidableEq, Repr

/-- Failure oracle for one `connect` call: for each OS-level operation,
`none` means success and `some errno` means it raises `OSError(errno)`;
the body may raise any `PyError`. -/
structure ConnectOracle where
  createErr : Option Nat
  connectErr : Option Nat
  mkInputErr : Option Nat
  mkOutputErr : Option Nat
  bodyErr : Option PyError
  closeOutputErr : Option Nat
  closeInputErr : Option Nat
  closeSocketErr : Option Nat
deriving DecidableEq, Repr

/-- Run a `with`-exit close: if the close raises, its `OSError` replaces
the outcome in flight (Python exception-replacement semantics); otherwise
the inner outcome propagates.  `none` is normal completion. -/
def exitWith (closeErr : Option Nat) (inner : Option PyError) : Option PyError :=
  match closeErr with
  | some e => some (PyError.osError e)
  | none => inner

/-- Execution of `connect` with the body abstracted: `bodyEvs`/`bodyRes`
are the events and outcome of the code at the `yield` point.  Returns the
final outcome (`none` = normal) and the event trace. -/
def connectExecWith (o : ConnectOracle) (bodyEvs : List Ev) (bodyRes : Option PyError) :
    Option PyError × List Ev :=
  match o.createErr with
  | some e => (some (PyError.osError e), [Ev.sockCreate])
  | none =>
    let inner : Option PyError × List Ev :=
      match o.connectErr with
      | some e => (some (PyError.osError e), [Ev.sockConnect])
      | none =>
        match o.mkInputErr with
        | some e => (some (PyError.osError e), [Ev.sockConnect, Ev.mkInput])
        | none =>
          let inner2 : Option PyError × List Ev :=
            match o.mkOutputErr with
            | some e => (some (PyError.osError e), [Ev.mkOutput])
            | none =>
              (exitWith o.closeOutputErr bodyRes,
               Ev.mkOutput :: bodyEvs ++ [Ev.closeOutput])
          (exitWith o.closeInputErr inner2.1,
           Ev.sockConnect :: Ev.mkInput :: inner2.2 ++ [Ev.closeInput])
    (exitWith o.closeSocketErr inner.1, Ev.sockCreate :: inner.2 ++ [Ev.closeSocket])

/-- Execution of `connect` proper: the body is the caller's block. -/
def connectExec (o : ConnectOracle) : Option PyError × List Ev :=
  connectExecWith o [Ev.body] o.bodyErr

/-- Execution of `connect_in_text_mode`: inside the `connect` scope, the
two binary channels are wrapped in `io.TextIOWrapper`s and the caller's
block runs on the wrappers. -/
def connectInTextModeExec (o : ConnectOracle) : Option PyError × List Ev :=
  connectExecWith o [Ev.wrapText, Ev.body] o.bodyErr

/-- The first error raised by the setup phase of `connect` (socket
creation, connect, the two `makefile` calls), in program order. -/
def firstSetupErr (o : ConnectOracle) : Option Nat :=
  match o.createErr with
  | some e => some e
  | none =>
    match o.connectErr with
    | some e => some e
    | none =>
      match o.mkInputErr with
      | some e => some e
      | none => o.mkOutputErr

/-! ### Text-mode stream data model

`connect_in_text_mode` wraps each binary channel in
`io.TextIOWrapper(channel, encoding="utf-8", line_buffering=True)`.

Write side: the binary output channel (`makefile(mode="wb")`) is a buffered
writer over the socket; a text write encodes to UTF-8 and hands the bytes
to that buffer, and with `line_buffering=True` the wrapper flushes after a
write that contains a line terminator (`\n` or `\r`, per CPython).  Bytes
still in the buffer are not observable on the underlying binary
connection.

Read side: text reads decode the available bytes incrementally as strict
UTF-8: a trailing incomplete sequence is kept pending for the next read,
and an invalid sequence raises `UnicodeDecodeError`. -/

/-- The binary output channel: a buffered writer over the socket.  `sent`
is what is observable on the underlying binary connection. -/
structure BinOut where
  buffered : List Nat
  sent : List Nat
  closed : Bool
deriving DecidableEq, Repr

/-- Buffered write: bytes accumulate in the buffer. -/
def BinOut.write (b : BinOut) (bs : List Nat) : BinOut :=
  { b with buffered := b.buffered ++ bs }

/-- Flush: move all buffered bytes onto the wire. -/
def BinOut.flush (b : BinOut) : BinOut :=
  { b with buffered := [], sent := b.sent ++ b.buffered }

/-- Close: flush, then mark closed. -/
def BinOut.close (b : BinOut) : BinOut :=
  { b.flush with closed := true }

/-- A text-mode output stream: `io.TextIOWrapper(..., encoding="utf-8",
line_buffering=True)` over a binary output channel. -/
structure TextOut where
  bin : BinOut
deriving DecidableEq, Repr

/-- Whether a character triggers the line-buffered flush (CPython flushes
a line-buffered text stream when the written string contains a newline or
a carriage return). -/
def isLineTerm (c : Char) : Bool := c = '\n' || c = '\r'

/-- Text write: encode to UTF-8, hand the bytes to the underlying buffered
writer, and flush when the written string contains a line terminator. -/
def TextOut.write (t : TextOut) (s : String) : TextOut :=
  let written : TextOut := { t with bin := t.bin.write (utf8Encode s) }
  if s.data.any isLineTerm then { written with bin := written.bin.flush }
  else written

/-- Explicit flush of the text wrapper (flushes the underlying buffer). -/
def TextOut.flush (t : TextOut) : TextOut :=
  { t with bin := t.bin.flush }

/-- Closing the text wrapper flushes and closes the underlying binary
channel (`TextIOWrapper.close` closes the buffer it wraps). -/
def TextOut.close (t : TextOut) : TextOut :=
  { t with bin := t.bin.close }

/-- The binary input channel: bytes available from the socket. -/
structure BinIn where
  avail : List Nat
  closed : Bool
deriving DecidableEq, Repr

/-- Whether a byte is a UTF-8 continuation byte (`0x80`–`0xBF`). -/
def isCont (b : Nat) : Bool := 0x80 ≤ b && b < 0xC0

/-- Decode the first scalar of a strict UTF-8 byte sequence.  Returns the
character and remaining bytes, `none` when the input is a proper prefix of
a valid sequence (incomplete input, kept pending by an incremental
decoder), or a `UnicodeDecodeError` on invalid input. -/
def utf8DecodeOne : List Nat → Except PyError (Option (Char × List Nat))
  | [] => Except.ok none
  | b0 :: rest =>
    if b0 < 0x80 then Except.ok (some (Char.ofNat b0, rest))
    else if b0 < 0xC2 then Except.error (PyError.unicodeDecodeError 0)
    else if b0 < 0xE0 then
      match rest with
      | [] => Except.ok none
      | b1 :: rest1 =>
        if isCont b1 then
          Except.ok (some (Char.ofNat ((b0 - 0xC0) * 64 + (b1 - 0x80)), rest1))
        else Except.error (PyError.unicodeDecodeError 0)
    else if b0 < 0xF0 then
      let lo := if b0 = 0xE0 then 0xA0 else 0x80
      let hi := if b0 = 0xED then 0xA0 else 0xC0
      match rest with
      | [] => Except.ok none
      | b1 :: rest1 =>
        if lo ≤ b1 && b1 < hi then
          match rest1 with
          | [] => Except.ok none
          | b2 :: rest2 =>
            if isCont b2 then
              Except.ok (some
                (Char.ofNat ((b0 - 0xE0) * 4096 + (b1 - 0x80) * 64 + (b2 - 0x80)), rest2))
            else Except.error (PyError.unicodeDecodeError 0)
        else Except.error (PyError.unicodeDecodeError 0)
    else if b0 < 0xF5 then
      let lo := if b0 = 0xF0 then 0x90 else 0x80
      let hi := if b0 = 0xF4 then 0x90 else 0xC0
      match rest with
      | [] => Except.ok none
      | b1 :: rest1 =>
        if lo ≤ b1 && b1 < hi then
          match rest1 with
          | [] => Except.ok none
          | b2 :: rest2 =>
            if isCont b2 then
              match rest2 with
              | [] => Except.ok none
              | b3 :: rest3 =>
                if isCont b3 then
                  Except.ok (some
                    (Char.ofNat ((b0 - 0xF0) * 262144 + (b1 - 0x80) * 4096 +
                      (b2 - 0x80) * 64 + (b3 - 0x80)), rest3))
                else Except.error (PyError.unicodeDecodeError 0)
            else Except.error (PyError.unicodeDecodeError 0)
        else Except.error (PyError.unicodeDecodeError 0)
    else Except.error (PyError.unicodeDecodeError 0)

/-- Incremental decode of all complete scalars at the front of a byte
list (fuel-based; the fuel is always at least the number of scalars). -/
def utf8DecodeIncrAux : Nat → List Nat → Except PyError (List Char × List Nat)
  | 0, bs => Except.ok ([], bs)
  | n + 1, bs =>
    match utf8DecodeOne bs with
    | Except.error e => Except.error e
    | Except.ok none => Except.ok ([], bs)
    | Except.ok (some (c, rest)) =>
      match utf8DecodeIncrAux n rest with
      | Except.error e => Except.error e
      | Except.ok (cs, pend) => Except.ok (c :: cs, pend)

/-- Incremental decode: all complete scalars, plus the pending incomplete
tail kept for the next read. -/
def utf8DecodeIncr (bs : List Nat) : Except PyError (List Char × List Nat) :=
  utf8DecodeIncrAux bs.length bs

/-- A text-mode input stream: an incremental UTF-8 decoder over a binary
input channel; `pending` holds bytes of an incomplete trailing sequence. -/
structure TextIn where
  bin : BinIn
  pending : List Nat
deriving DecidableEq, Repr

/-- One-character-at-a-time universal-newline translation; the flag records
that the previous character was a carriage return whose translation is
still pending (a following `\n` collapses with it). -/
def transNL : Bool → List Char → List Char
  | pendingCR, [] => if pendingCR then ['\n'] else []
  | pendingCR, c :: rest =>
    if c = '\r' then
      (if pendingCR then ['\n'] else []) ++ transNL true rest
    else if c = '\n' then
      '\n' :: transNL false rest
    else
      (if pendingCR then ['\n'] else []) ++ (c :: transNL false rest)

/-- Universal-newline translation performed by `io.TextIOWrapper` with the
default `newline=None` on read: `\r\n` and lone `\r` both become `\n`
(checked against CPython, e.g. `a\rb\r\nc` reads as `a\nb\nc` and a
trailing `\r` of a complete read becomes `\n`). -/
def translateNewlines (cs : List Char) : List Char := transNL false cs

/-- Text read: consume the available bytes, decode incrementally, keep the
incomplete trailing byte sequence pending, and apply the universal-newline
translation to the decoded text. -/
def TextIn.read (t : TextIn) : Except PyError (String × TextIn) :=
  match utf8DecodeIncr (t.pending ++ t.bin.avail) with
  | Except.error e => Except.error e
  | Except.ok (cs, pend) =>
      Except.ok (String.mk (translateNewlines cs),
        { bin := { t.bin with avail := [] }, pending := pend })

/-- Closing the text input wrapper closes the underlying binary channel. -/
def TextIn.close (t : TextIn) : TextIn :=
  { t with bin := { t.bin with closed := true } }

/-! ### Example values used by the witnesses -/

/-- An empty filesystem (no entries, root working directory). -/
def emptyFs : Fs := ⟨[], []⟩

/-- The spec's scenario identifier, `/home/user/project`. -/
def exampleLogDir : PyPath := ⟨true, ["home", "user", "project"]⟩

/-- A filesystem with one symlink, `/a -> /x/y`. -/
def symlinkFs : Fs := ⟨[(["a"], FsEntry.symlink ⟨true, ["x", "y"]⟩)], []⟩

/-- Whether an outcome is an `OSError` (the connection-class failure). -/
def isOsErr : Option PyError → Bool
  | some (PyError.osError _) => true
  | _ => false

/-- Whether an error is a `UnicodeDecodeError` (the encoding-class
failure). -/
def isEncodingErr : PyError → Bool
  | PyError.unicodeDecodeError _ => true
  | _ => false

/-! ### Helper lemmas -/

theorem byteHex_length (b : Nat) : (byteHex b).length = 2 := rfl

theorem flatMap_byteHex_length (l : List Nat) :
    (l.flatMap byteHex).length = 2 * l.length := by
  induction l with
  | nil => rfl
  | cons x xs ih => simp [List.flatMap_cons, byteHex, ih]; omega

theorem md5Digest_length (msg : List Nat) : (md5Digest msg).length = 16 := by
  simp [md5Digest, wordLE]

theorem md5HexDigest_length (msg : List Nat) : (md5HexDigest msg).length = 32 := by
  show ((md5Digest msg).flatMap byteHex).length = 32
  rw [flatMap_byteHex_length, md5Digest_length]

theorem hexNibble_mem (n : Nat) : hexNibble n ∈ hexAlphabet := by
  have h : n % 16 < hexAlphabet.length := by
    have := Nat.mod_lt n (show 0 < 16 by decide)
    simpa [hexAlphabet] using this
  rw [hexNibble, List.getD_eq_getElem _ _ h]
  exact List.getElem_mem h

theorem md5HexDigest_chars (msg : List Nat) (c : Char)
    (hc : c ∈ (md5HexDigest msg).data) : c ∈ hexAlphabet := by
  have hm : c ∈ (md5Digest msg).flatMap byteHex := hc
  rcases List.mem_flatMap.mp hm with ⟨b, _, hb⟩
  simp only [byteHex, List.mem_cons, List.mem_singleton, List.not_mem_nil, or_false] at hb
  rcases hb with h | h <;> subst h <;> exact hexNibble_mem _

theorem get_socket_path_eq_map (fs : Fs) (root : String) (p : PyPath) :
    get_socket_path fs root p =
      (resolveStr fs p).map
        (fun s => root ++ "/" ++ ("pyre_server_" ++ md5HexDigest (utf8Encode s) ++ ".sock")) := by
  cases h : resolveStr fs p <;> simp [get_socket_path, h, Except.map]

/-! ### Claim theorems: the socket path resolver -/

/-- C1: for every root path and identifier path, `get_socket_path(root,
identifier)` returns exactly `root / ("pyre_server_" + d + ".sock")`,
where `d` is the 32-character lowercase hexadecimal MD5 digest of the
UTF-8 encoding of the canonicalized (best-effort resolved) string form of
the identifier.  The last conjunct pins the concrete scenario
`get_socket_path("/tmp", "/home/user/project")`, whose digest was checked
against `hashlib.md5`. -/
theorem socket_path_md5_spec :
    ∀ (fs : Fs) (root : String) (p : PyPath),
      get_socket_path fs root p =
        (resolveStr fs p).map
          (fun s => root ++ "/" ++ ("pyre_server_" ++ md5HexDigest (utf8Encode s) ++ ".sock"))
      ∧ (∀ s : String, (md5HexDigest (utf8Encode s)).length = 32
          ∧ ((md5HexDigest (utf8Encode s)).data.all
              (fun c => decide (c ∈ hexAlphabet) && (c.isDigit || c.isLower))) = true)
      ∧ get_socket_path emptyFs "/tmp" exampleLogDir =
          Except.ok "/tmp/pyre_server_90722f2638004be06d790eaac9ac1f8a.sock" := by
  intro fs root p
  refine ⟨get_socket_path_eq_map fs root p, ?_, by rfl⟩
  intro s
  refine ⟨md5HexDigest_length _, ?_⟩
  apply List.all_eq_true.mpr
  intro c hc
  have h1 := md5HexDigest_chars (utf8Encode s) c hc
  have h2 : ∀ d ∈ hexAlphabet, (d.isDigit || d.isLower) = true := by decide
  simp [h1, h2 c h1]

/-- C4: the resolver is deterministic — equal arguments (filesystem state
included) yield an identical path.  Purity is by construction: the
embedding of `get_socket_path` is a function of `(fs, root, identifier)`
alone and returns only a path. -/
theorem get_socket_path_deterministic :
    ∀ (fs₁ fs₂ : Fs) (root₁ root₂ : String) (p₁ p₂ : PyPath),
      fs₁ = fs₂ → root₁ = root₂ → p₁ = p₂ →
      get_socket_path fs₁ root₁ p₁ = get_socket_path fs₂ root₂ p₂ := by
  intro fs₁ fs₂ r₁ r₂ p₁ p₂ h1 h2 h3
  rw [h1, h2, h3]

theorem get_socket_path_deterministic_witness :
    emptyFs = emptyFs ∧ "/tmp" = "/tmp" ∧ exampleLogDir = exampleLogDir ∧
    get_socket_path emptyFs "/tmp" exampleLogDir =
      get_socket_path emptyFs "/tmp" exampleLogDir :=
  ⟨rfl, rfl, rfl, get_socket_path_deterministic _ _ _ _ _ _ rfl rfl rfl⟩

/-- C9: the final path component produced by `get_socket_path` always has
exactly 49 characters (12-character prefix `pyre_server_`, 32 hex digits,
5-character suffix `.sock`), independent of the identifier's length. -/
theorem socket_file_name_49 :
    ∀ (fs : Fs) (root : String) (p : PyPath) (name : String),
      socketFileName fs p = Except.ok name →
      name.length = 49 ∧ get_socket_path fs root p = Except.ok (root ++ "/" ++ name) := by
  intro fs root p name h
  unfold socketFileName at h
  cases hr : resolveStr fs p with
  | error e => rw [hr] at h; simp [Except.map] at h
  | ok s =>
    rw [hr] at h
    simp only [Except.map] at h
    injection h with h
    constructor
    · rw [← h, String.length_append, String.length_append, md5HexDigest_length]
      rfl
    · simp [get_socket_path, hr, ← h]

theorem socket_file_name_49_witness :
    socketFileName emptyFs exampleLogDir =
      Except.ok "pyre_server_90722f2638004be06d790eaac9ac1f8a.sock" ∧
    ("pyre_server_90722f2638004be06d790eaac9ac1f8a.sock" : String).length = 49 ∧
    get_socket_path emptyFs "/tmp" exampleLogDir =
      Except.ok ("/tmp" ++ "/" ++ "pyre_server_90722f2638004be06d790eaac9ac1f8a.sock") := by
  have h : socketFileName emptyFs exampleLogDir =
      Except.ok "pyre_server_90722f2638004be06d790eaac9ac1f8a.sock" := by rfl
  have hc := socket_file_name_49 emptyFs "/tmp" exampleLogDir _ h
  exact ⟨h, hc.1, hc.2⟩

/-- C10: `get_socket_path` depends on the identifier only through its
canonicalized string form (equal resolutions — e.g. a symlink and its
target — give equal paths), while `root` is incorporated verbatim: the
result is `root` joined with a file name computed without `root`. -/
theorem get_socket_path_identifier_congruence :
    ∀ (fs : Fs) (root : String) (a b : PyPath),
      (resolveStr fs a = resolveStr fs b →
         get_socket_path fs root a = get_socket_path fs root b)
      ∧ get_socket_path fs root a =
          (socketFileName fs a).map (fun n => root ++ "/" ++ n) := by
  intro fs root a b
  constructor
  · intro h
    rw [get_socket_path_eq_map, get_socket_path_eq_map, h]
  · cases h : resolveStr fs a <;> simp [get_socket_path, socketFileName, h, Except.map]

theorem get_socket_path_identifier_congruence_witness :
    resolveStr symlinkFs ⟨true, ["a", "b"]⟩ = resolveStr symlinkFs ⟨true, ["x", "y", "b"]⟩ ∧
    get_socket_path symlinkFs "/tmp" ⟨true, ["a", "b"]⟩ =
      get_socket_path symlinkFs "/tmp" ⟨true, ["x", "y", "b"]⟩ := by
  have h : resolveStr symlinkFs ⟨true, ["a", "b"]⟩ =
      resolveStr symlinkFs ⟨true, ["x", "y", "b"]⟩ := by rfl
  exact ⟨h, (get_socket_path_identifier_congruence symlinkFs "/tmp" _ _).1 h⟩

/-! ### Claim theorems: the connect scope -/

/-- C2: on every exit from the `connect` scope — normal completion of the
body, a failure raised by the body, or a failure while closing one of the
two derived stream views — the trace is the same fixed sequence: the
socket is closed exactly once, and each derived stream close is attempted
exactly once, independently of the body outcome and of failures of the
other closes. -/
theorem connect_scope_cleanup :
    ∀ o : ConnectOracle,
      o.createErr = none → o.connectErr = none →
      o.mkInputErr = none → o.mkOutputErr = none →
      (connectExec o).2 =
        [Ev.sockCreate, Ev.sockConnect, Ev.mkInput, Ev.mkOutput, Ev.body,
         Ev.closeOutput, Ev.closeInput, Ev.closeSocket]
      ∧ (connectExec o).2.count Ev.closeSocket = 1
      ∧ (connectExec o).2.count Ev.closeOutput = 1
      ∧ (connectExec o).2.count Ev.closeInput = 1 := by
  intro o h1 h2 h3 h4
  have ht : (connectExec o).2 =
      [Ev.sockCreate, Ev.sockConnect, Ev.mkInput, Ev.mkOutput, Ev.body,
       Ev.closeOutput, Ev.closeInput, Ev.closeSocket] := by
    simp [connectExec, connectExecWith, h1, h2, h3, h4]
  refine ⟨ht, ?_, ?_, ?_⟩ <;> rw [ht] <;> rfl

theorem connect_scope_cleanup_witness :
    (⟨none, none, none, none, some (PyError.osError 32), some 9, none, none⟩ :
        ConnectOracle).createErr = none ∧
    (connectExec
        ⟨none, none, none, none, some (PyError.osError 32), some 9, none, none⟩).2.count
      Ev.closeSocket = 1 := by
  have h := connect_scope_cleanup
    ⟨none, none, none, none, some (PyError.osError 32), some 9, none, none⟩
    rfl rfl rfl rfl
  exact ⟨rfl, h.2.1⟩

/-- C3: every failure of the setup phase (socket creation, connect, or
building either stream view) surfaces as an `OSError` — the underlying
system error itself when the cleanup closes succeed — and whatever was
successfully opened before the failure is still closed. -/
theorem connect_failure_cleanup :
    ∀ (o : ConnectOracle) (e : Nat),
      firstSetupErr o = some e →
      isOsErr (connectExec o).1 = true
      ∧ (o.closeInputErr = none → o.closeSocketErr = none →
          (connectExec o).1 = some (PyError.osError e))
      ∧ (o.createErr = none → Ev.closeSocket ∈ (connectExec o).2)
      ∧ (o.createErr = none → o.connectErr = none → o.mkInputErr = none →
          Ev.closeInput ∈ (connectExec o).2) := by
  intro o e h
  rcases o with ⟨ce, co, mi, mo, be, c1, c2, c3⟩
  cases ce <;> cases co <;> cases mi <;> cases mo <;> cases c2 <;> cases c3 <;>
    simp_all [connectExec, connectExecWith, firstSetupErr, exitWith, isOsErr]

theorem connect_failure_cleanup_witness :
    firstSetupErr ⟨none, some 111, none, none, none, none, none, none⟩ = some 111 ∧
    (connectExec ⟨none, some 111, none, none, none, none, none, none⟩).1 =
      some (PyError.osError 111) ∧
    Ev.closeSocket ∈ (connectExec ⟨none, some 111, none, none, none, none, none, none⟩).2 := by
  have h := connect_failure_cleanup
    ⟨none, some 111, none, none, none, none, none, none⟩ 111 rfl
  exact ⟨rfl, h.2.1 rfl rfl, h.2.2.1 rfl⟩

/-! ### Claim theorems: the text-mode layer -/

/-- Whether a result failed with anything other than an encoding error. -/
def errOk {α : Type} : Except PyError α → Bool
  | Except.error e => isEncodingErr e
  | Except.ok _ => true

theorem utf8DecodeOne_errOk (bs : List Nat) : errOk (utf8DecodeOne bs) = true := by
  cases bs with
  | nil => rfl
  | cons b0 rest =>
    unfold utf8DecodeOne
    repeat' split
    all_goals (try dsimp only)
    all_goals (repeat' split)
    all_goals rfl

theorem utf8DecodeOne_error_kind (bs : List Nat) (e : PyError)
    (h : utf8DecodeOne bs = Except.error e) : isEncodingErr e = true := by
  have hk := utf8DecodeOne_errOk bs
  rw [h] at hk
  exact hk

theorem utf8DecodeIncrAux_error_kind :
    ∀ (n : Nat) (bs : List Nat) (e : PyError),
      utf8DecodeIncrAux n bs = Except.error e → isEncodingErr e = true := by
  intro n
  induction n with
  | zero => intro bs e h; simp [utf8DecodeIncrAux] at h
  | succ k ih =>
    intro bs e h
    unfold utf8DecodeIncrAux at h
    cases h1 : utf8DecodeOne bs with
    | error e1 =>
      rw [h1] at h
      simp at h
      rw [← h]
      exact utf8DecodeOne_error_kind bs e1 h1
    | ok r =>
      rw [h1] at h
      cases r with
      | none => simp at h
      | some p =>
        simp only at h
        cases h2 : utf8DecodeIncrAux k p.2 with
        | error e2 =>
          rw [h2] at h
          simp at h
          rw [← h]
          exact ih p.2 e2 h2
        | ok q => rw [h2] at h; simp at h

/-- When the setup phase fails, the body never runs, so the execution of
`connect` is independent of what the body would do. -/
theorem connectExecWith_setup_indep (o : ConnectOracle) (e : Nat)
    (h : firstSetupErr o = some e)
    (ev1 ev2 : List Ev) (r1 r2 : Option PyError) :
    connectExecWith o ev1 r1 = connectExecWith o ev2 r2 := by
  rcases o with ⟨ce, co, mi, mo, be, c1, c2, c3⟩
  cases ce <;> cases co <;> cases mi <;> cases mo <;>
    simp_all [connectExecWith, firstSetupErr]

/-- C7: closing or releasing a text wrapper closes the underlying binary
stream it wraps, and the unconditional cleanup of `connect` extends
through the text layer: on every exit from the `connect_in_text_mode`
scope the binary streams and the socket are closed (no leaked binary
handle), whatever the body outcome and close failures. -/
theorem text_wrapper_cleanup :
    ∀ (t : TextOut) (r : TextIn) (o : ConnectOracle),
      (TextOut.close t).bin.closed = true
      ∧ (TextIn.close r).bin.closed = true
      ∧ (o.createErr = none → Ev.closeSocket ∈ (connectInTextModeExec o).2)
      ∧ (o.createErr = none → o.connectErr = none →
         o.mkInputErr = none → o.mkOutputErr = none →
          (connectInTextModeExec o).2 =
            [Ev.sockCreate, Ev.sockConnect, Ev.mkInput, Ev.mkOutput, Ev.wrapText,
             Ev.body, Ev.closeOutput, Ev.closeInput, Ev.closeSocket]) := by
  intro t r o
  refine ⟨rfl, rfl, ?_, ?_⟩
  · intro h1
    rcases o with ⟨ce, co, mi, mo, be, c1, c2, c3⟩
    cases ce <;> cases co <;> cases mi <;> cases mo <;>
      simp_all [connectInTextModeExec, connectExecWith]
  · intro h1 h2 h3 h4
    simp [connectInTextModeExec, connectExecWith, h1, h2, h3, h4]

theorem text_wrapper_cleanup_witness :
    (⟨none, none, none, none, some (PyError.osError 104), none, some 9, none⟩ :
        ConnectOracle).createErr = none ∧
    Ev.closeSocket ∈
      (connectInTextModeExec
        ⟨none, none, none, none, some (PyError.osError 104), none, some 9, none⟩).2 := by
  have h := text_wrapper_cleanup ⟨⟨[], [], false⟩⟩ ⟨⟨[], false⟩, []⟩
    ⟨none, none, none, none, some (PyError.osError 104), none, some 9, none⟩
  exact ⟨rfl, h.2.2.1 rfl⟩

/-- C8: invalid UTF-8 on a text-mode read surfaces as a decode failure of
kind `UnicodeDecodeError`, a kind distinct from the `OSError` of a
connection failure, while connection-level failures of `connect`
propagate through `connect_in_text_mode` unchanged. -/
theorem text_mode_error_kinds :
    ∀ (o : ConnectOracle) (e : Nat) (bs : List Nat) (err : PyError)
      (pos errno : Nat),
      utf8DecodeIncr [0xFF] = Except.error (PyError.unicodeDecodeError 0)
      ∧ (utf8DecodeIncr bs = Except.error err → isEncodingErr err = true)
      ∧ PyError.unicodeDecodeError pos ≠ PyError.osError errno
      ∧ (firstSetupErr o = some e → connectInTextModeExec o = connectExec o) := by
  intro o e bs err pos errno
  refine ⟨rfl, ?_, by simp, ?_⟩
  · intro h
    exact utf8DecodeIncrAux_error_kind bs.length bs err h
  · intro h
    exact connectExecWith_setup_indep o e h _ _ _ _

theorem text_mode_error_kinds_witness :
    utf8DecodeIncr [0xC3, 0x28] = Except.error (PyError.unicodeDecodeError 0) ∧
    isEncodingErr (PyError.unicodeDecodeError 0) = true ∧
    firstSetupErr ⟨none, some 2, none, none, none, none, none, none⟩ = some 2 ∧
    connectInTextModeExec ⟨none, some 2, none, none, none, none, none, none⟩ =
      connectExec ⟨none, some 2, none, none, none, none, none, none⟩ := by
  have hd : utf8DecodeIncr [0xC3, 0x28] = Except.error (PyError.unicodeDecodeError 0) := by
    rfl
  have h := text_mode_error_kinds
    ⟨none, some 2, none, none, none, none, none, none⟩ 2 [0xC3, 0x28]
    (PyError.unicodeDecodeError 0) 0 2
  exact ⟨hd, h.2.1 hd, rfl, h.2.2.2 rfl⟩

/-! ### Claim theorems: existence tolerance of the resolver -/

theorem lookup_mem_entries :
    ∀ (l : List (List String × FsEntry)) (q : List String) (v : FsEntry),
      l.lookup q = some v → (q, v) ∈ l := by
  intro l
  induction l with
  | nil => intro q v h; simp [List.lookup] at h
  | cons a as ih =>
    intro q v h
    rw [List.lookup] at h
    by_cases hq : (q == a.1) = true
    · rw [hq] at h
      simp at h
      have h1 : q = a.1 := eq_of_beq hq
      rw [List.mem_cons]
      left
      rw [h1, ← h]
    · rw [Bool.not_eq_true] at hq
      rw [hq] at h
      right
      exact ih q v h

theorem readlink_eq_none (fs : Fs) (h : fs.hasSymlink = false) (q : List String) :
    fs.readlink q = none := by
  unfold Fs.readlink
  cases hl : fs.entries.lookup q with
  | none => rfl
  | some ent =>
    cases ent with
    | directory => rfl
    | symlink t =>
      exfalso
      have hm := lookup_mem_entries fs.entries q (FsEntry.symlink t) hl
      have : fs.hasSymlink = true := by
        unfold Fs.hasSymlink
        apply List.any_eq_true.mpr
        exact ⟨(q, FsEntry.symlink t), hm, rfl⟩
      rw [this] at h
      cases h

theorem resolveParts_total (fs : Fs) (h : fs.hasSymlink = false) :
    ∀ (rest : List String) (fuel : Nat) (acc : List String),
      rest.length < fuel →
      ∃ out, resolveParts fs fuel acc rest = Except.ok out := by
  intro rest
  induction rest with
  | nil =>
    intro fuel acc hf
    cases fuel with
    | zero => cases hf
    | succ k => exact ⟨acc, rfl⟩
  | cons name names ih =>
    intro fuel acc hf
    cases fuel with
    | zero => cases hf
    | succ k =>
      have hk : names.length < k := by
        simp at hf
        omega
      by_cases h1 : name = "" ∨ name = "."
      · have : (name = "" || name = ".") = true := by
          rcases h1 with h1 | h1 <;> simp [h1]
        rw [resolveParts, if_pos this]
        exact ih k acc hk
      · have hne : (name = "" || name = ".") = false := by
          push_neg at h1
          simp [h1.1, h1.2]
        by_cases h2 : name = ".."
        · rw [resolveParts, if_neg (by simp [hne]), if_pos h2]
          exact ih k acc.dropLast hk
        · rw [resolveParts, if_neg (by simp [hne]), if_neg h2,
            readlink_eq_none fs h (acc ++ [name])]
          exact ih k (acc ++ [name]) hk

theorem resolveFuel_gt (fs : Fs) (p : PyPath) : p.parts.length < resolveFuel fs p := by
  unfold resolveFuel
  have h1 : p.parts.length < p.parts.length + 1 := Nat.lt_succ_self _
  calc p.parts.length < p.parts.length + 1 := h1
    _ ≤ (p.parts.length + 1) * ((fs.entries.length + 1) *
          (symlinkTargetSizes fs + fs.entries.length + 2)) := by
        apply Nat.le_mul_of_pos_right
        positivity
    _ = (p.parts.length + 1) * (fs.entries.length + 1) *
          (symlinkTargetSizes fs + fs.entries.length + 2) := by ring

/-- C5: for an identifier whose directory need not exist, `get_socket_path`
does not fail — on a symlink-free filesystem (non-strict resolution never
consults the existence of directories, only symlinks) resolution always
succeeds — and the result is unchanged by creating the directory, provided
the canonical absolute form of the identifier is unchanged. -/
theorem resolve_existence_tolerance :
    ∀ (fs : Fs) (root : String) (p : PyPath) (d : List String),
      (fs.hasSymlink = false → (resolveStr fs p).isOk = true)
      ∧ (resolveStr (fs.createDir d) p = resolveStr fs p →
          get_socket_path (fs.createDir d) root p = get_socket_path fs root p) := by
  intro fs root p d
  constructor
  · intro h
    rcases resolveParts_total fs h p.parts (resolveFuel fs p)
      (if p.absolute then [] else fs.cwd) (resolveFuel_gt fs p) with ⟨out, hout⟩
    unfold resolveStr resolveNonStrict
    rw [hout]
    rfl
  · intro h
    rw [get_socket_path_eq_map, get_socket_path_eq_map, h]

theorem resolve_existence_tolerance_witness :
    Fs.hasSymlink emptyFs = false ∧
    (resolveStr emptyFs ⟨true, ["does", "not", "exist"]⟩).isOk = true ∧
    resolveStr (emptyFs.createDir ["does", "not", "exist"]) ⟨true, ["does", "not", "exist"]⟩ =
      resolveStr emptyFs ⟨true, ["does", "not", "exist"]⟩ ∧
    get_socket_path (emptyFs.createDir ["does", "not", "exist"]) "/tmp"
        ⟨true, ["does", "not", "exist"]⟩ =
      get_socket_path emptyFs "/tmp" ⟨true, ["does", "not", "exist"]⟩ := by
  have h := resolve_existence_tolerance emptyFs "/tmp"
    ⟨true, ["does", "not", "exist"]⟩ ["does", "not", "exist"]
  exact ⟨rfl, h.1 rfl, by rfl, h.2 (by rfl)⟩

/-! ### Claim theorems: line buffering and UTF-8 roundtrip -/

theorem char_valid_nat (c : Char) :
    c.toNat < 0xD800 ∨ (0xDFFF < c.toNat ∧ c.toNat < 0x110000) := by
  rcases c.valid with h | ⟨h1, h2⟩
  · left; exact h
  · right; exact ⟨h1, h2⟩

theorem utf8DecodeOne_encodeChar (c : Char) (rest : List Nat) :
    utf8DecodeOne (utf8EncodeChar c ++ rest) = Except.ok (some (c, rest)) := by
  have hv := char_valid_nat c
  have hofn := Char.ofNat_toNat c
  by_cases h1 : c.toNat < 0x80
  · have he : utf8EncodeChar c = [c.toNat] := by
      unfold utf8EncodeChar
      rw [if_pos h1]
    rw [he]
    simp only [List.cons_append, List.nil_append, utf8DecodeOne]
    rw [if_pos h1, hofn]
  · by_cases h2 : c.toNat < 0x800
    · have he : utf8EncodeChar c = [0xC0 + c.toNat / 64, 0x80 + c.toNat % 64] := by
        unfold utf8EncodeChar
        rw [if_neg h1, if_pos h2]
      rw [he]
      simp only [List.cons_append, List.nil_append, utf8DecodeOne]
      rw [if_neg (by omega), if_neg (by omega), if_pos (by omega)]
      have hc : isCont (0x80 + c.toNat % 64) = true := by
        unfold isCont
        simp only [Bool.and_eq_true, decide_eq_true_eq]
        omega
      rw [hc]
      simp only [if_true]
      have harg : (0xC0 + c.toNat / 64 - 0xC0) * 64 + (0x80 + c.toNat % 64 - 0x80) = c.toNat := by
        omega
      rw [harg, hofn]
    · by_cases h3 : c.toNat < 0x10000
      · have he : utf8EncodeChar c =
            [0xE0 + c.toNat / 4096, 0x80 + c.toNat / 64 % 64, 0x80 + c.toNat % 64] := by
          unfold utf8EncodeChar
          rw [if_neg h1, if_neg h2, if_pos h3]
        rw [he]
        simp only [List.cons_append, List.nil_append, utf8DecodeOne]
        rw [if_neg (by omega), if_neg (by omega), if_neg (by omega), if_pos (by omega)]
        have hb1 : ((if 0xE0 + c.toNat / 4096 = 0xE0 then 0xA0 else 0x80) ≤
            0x80 + c.toNat / 64 % 64 &&
            0x80 + c.toNat / 64 % 64 <
              (if 0xE0 + c.toNat / 4096 = 0xED then 0xA0 else 0xC0)) = true := by
          simp only [Bool.and_eq_true, decide_eq_true_eq]
          constructor <;> split <;> omega
        rw [hb1]
        simp only [if_true]
        have hc2 : isCont (0x80 + c.toNat % 64) = true := by
          unfold isCont
          simp only [Bool.and_eq_true, decide_eq_true_eq]
          omega
        rw [hc2]
        simp only [if_true]
        have harg : (0xE0 + c.toNat / 4096 - 0xE0) * 4096 +
            (0x80 + c.toNat / 64 % 64 - 0x80) * 64 + (0x80 + c.toNat % 64 - 0x80) = c.toNat := by
          omega
        rw [harg, hofn]
      · have he : utf8EncodeChar c =
            [0xF0 + c.toNat / 262144, 0x80 + c.toNat / 4096 % 64,
             0x80 + c.toNat / 64 % 64, 0x80 + c.toNat % 64] := by
          unfold utf8EncodeChar
          rw [if_neg h1, if_neg h2, if_neg h3]
        rw [he]
        simp only [List.cons_append, List.nil_append, utf8DecodeOne]
        rw [if_neg (by omega), if_neg (by omega), if_neg (by omega), if_neg (by omega),
          if_pos (by omega)]
        have hb1 : ((if 0xF0 + c.toNat / 262144 = 0xF0 then 0x90 else 0x80) ≤
            0x80 + c.toNat / 4096 % 64 &&
            0x80 + c.toNat / 4096 % 64 <
              (if 0xF0 + c.toNat / 262144 = 0xF4 then 0x90 else 0xC0)) = true := by
          simp only [Bool.and_eq_true, decide_eq_true_eq]
          constructor <;> split <;> omega
        rw [hb1]
        simp only [if_true]
        have hc2 : isCont (0x80 + c.toNat / 64 % 64) = true := by
          unfold isCont
          simp only [Bool.and_eq_true, decide_eq_true_eq]
          omega
        have hc3 : isCont (0x80 + c.toNat % 64) = true := by
          unfold isCont
          simp only [Bool.and_eq_true, decide_eq_true_eq]
          omega
        rw [hc2]
        simp only [if_true]
        rw [hc3]
        simp only [if_true]
        have harg : (0xF0 + c.toNat / 262144 - 0xF0) * 262144 +
            (0x80 + c.toNat / 4096 % 64 - 0x80) * 4096 +
            (0x80 + c.toNat / 64 % 64 - 0x80) * 64 + (0x80 + c.toNat % 64 - 0x80) = c.toNat := by
          omega
        rw [harg, hofn]

theorem utf8EncodeChar_length_pos (c : Char) : 1 ≤ (utf8EncodeChar c).length := by
  unfold utf8EncodeChar
  dsimp only
  split_ifs <;> simp

theorem utf8EncodeList_length_ge (cs : List Char) :
    cs.length ≤ (cs.flatMap utf8EncodeChar).length := by
  induction cs with
  | nil => simp
  | cons c cs ih =>
    rw [List.flatMap_cons, List.length_append, List.length_cons]
    have := utf8EncodeChar_length_pos c
    omega

theorem utf8DecodeIncrAux_encode :
    ∀ (cs : List Char) (fuel : Nat), cs.length ≤ fuel →
      utf8DecodeIncrAux fuel (cs.flatMap utf8EncodeChar) = Except.ok (cs, []) := by
  intro cs
  induction cs with
  | nil =>
    intro fuel h
    cases fuel with
    | zero => rfl
    | succ k => rfl
  | cons c cs ih =>
    intro fuel h
    cases fuel with
    | zero => simp at h
    | succ k =>
      rw [List.flatMap_cons]
      unfold utf8DecodeIncrAux
      rw [utf8DecodeOne_encodeChar]
      have hk : cs.length ≤ k := by simp at h; omega
      simp only [ih k hk]

theorem utf8DecodeIncr_encode (s : String) :
    utf8DecodeIncr (utf8Encode s) = Except.ok (s.data, []) := by
  unfold utf8DecodeIncr utf8Encode
  exact utf8DecodeIncrAux_encode s.data _ (utf8EncodeList_length_ge s.data)

theorem transNL_id : ∀ cs : List Char, '\r' ∉ cs → transNL false cs = cs := by
  intro cs
  induction cs with
  | nil => intro h; rfl
  | cons c rest ih =>
    intro h
    have hc : ¬ c = '\r' := fun hc => h (by rw [hc]; exact List.mem_cons_self _ _)
    have hr : '\r' ∉ rest := fun hr => h (List.mem_cons_of_mem _ hr)
    by_cases hn : c = '\n'
    · rw [transNL, if_neg hc, if_pos hn, ih hr, hn]
    · rw [transNL, if_neg hc, if_neg hn, ih hr]
      simp

theorem translateNewlines_id (cs : List Char) (h : '\r' ∉ cs) :
    translateNewlines cs = cs := by
  unfold translateNewlines
  exact transNL_id cs h

/-- C6: the text-mode streams are line-buffered UTF-8 wrappers over the
binary channels obtained from `connect`: a write containing a line
terminator is flushed to the underlying binary connection at once; a write
containing neither a newline nor a carriage return leaves the underlying
connection untouched until an explicit flush or close; and reads decode
the available bytes incrementally as UTF-8 text (encode/decode roundtrip
at the codec level; a complete text-mode read returns the written string
after the wrapper's universal-newline translation, hence the string itself
whenever it contains no carriage return). -/
theorem text_mode_line_buffering :
    ∀ (t : TextOut) (s : String),
      (s.data.any isLineTerm = true →
        (TextOut.write t s).bin.buffered = [] ∧
        (TextOut.write t s).bin.sent = t.bin.sent ++ (t.bin.buffered ++ utf8Encode s))
      ∧ (s.data.any isLineTerm = false →
        (TextOut.write t s).bin.sent = t.bin.sent ∧
        (TextOut.write t s).bin.buffered = t.bin.buffered ++ utf8Encode s)
      ∧ (TextOut.flush (TextOut.write t s)).bin.sent =
          t.bin.sent ++ (t.bin.buffered ++ utf8Encode s)
      ∧ (TextOut.close (TextOut.write t s)).bin.sent =
          t.bin.sent ++ (t.bin.buffered ++ utf8Encode s)
      ∧ utf8DecodeIncr (utf8Encode s) = Except.ok (s.data, [])
      ∧ (∀ closed : Bool,
          TextIn.read ⟨⟨utf8Encode s, closed⟩, []⟩ =
            Except.ok (String.mk (translateNewlines s.data), ⟨⟨[], closed⟩, []⟩))
      ∧ ('\r' ∉ s.data → ∀ closed : Bool,
          TextIn.read ⟨⟨utf8Encode s, closed⟩, []⟩ =
            Except.ok (s, ⟨⟨[], closed⟩, []⟩)) := by
  intro t s
  refine ⟨?_, ?_, ?_, ?_, utf8DecodeIncr_encode s, ?_, ?_⟩
  · intro h
    simp [TextOut.write, BinOut.write, BinOut.flush, h]
  · intro h
    simp [TextOut.write, BinOut.write, h]
  · by_cases h : s.data.any isLineTerm = true
    · simp [TextOut.write, TextOut.flush, BinOut.write, BinOut.flush, h]
    · rw [Bool.not_eq_true] at h
      simp [TextOut.write, TextOut.flush, BinOut.write, BinOut.flush, h]
  · by_cases h : s.data.any isLineTerm = true
    · simp [TextOut.write, TextOut.close, BinOut.write, BinOut.flush, BinOut.close, h]
    · rw [Bool.not_eq_true] at h
      simp [TextOut.write, TextOut.close, BinOut.write, BinOut.flush, BinOut.close, h]
  · intro closed
    simp only [TextIn.read, List.nil_append, utf8DecodeIncr_encode s]
  · intro h closed
    simp only [TextIn.read, List.nil_append, utf8DecodeIncr_encode s,
      translateNewlines_id s.data h]

theorem text_mode_line_buffering_witness :
    ("hi\n".data.any isLineTerm) = true ∧
    (TextOut.write ⟨⟨[], [], false⟩⟩ "hi\n").bin.sent = [104, 105, 10] ∧
    ("hi".data.any isLineTerm) = false ∧
    (TextOut.write ⟨⟨[], [], false⟩⟩ "hi").bin.sent = [] ∧
    TextIn.read ⟨⟨utf8Encode "a\rb\r\nc", false⟩, []⟩ =
      Except.ok ("a\nb\nc", ⟨⟨[], false⟩, []⟩) ∧
    '\r' ∉ "hi\n".data ∧
    TextIn.read ⟨⟨utf8Encode "hi\n", false⟩, []⟩ =
      Except.ok ("hi\n", ⟨⟨[], false⟩, []⟩) := by
  refine ⟨by decide, ?_, by decide, ?_, ?_, by decide, ?_⟩
  · have h := (text_mode_line_buffering ⟨⟨[], [], false⟩⟩ "hi\n").1 (by decide)
    rw [h.2]
    rfl
  · exact ((text_mode_line_buffering ⟨⟨[], [], false⟩⟩ "hi").2.1 (by decide)).1
  · have h := (text_mode_line_buffering ⟨⟨[], [], false⟩⟩ "a\rb\r\nc").2.2.2.2.2.1 false
    rw [h]
    rfl
  · exact (text_mode_line_buffering ⟨⟨[], [], false⟩⟩ "hi\n").2.2.2.2.2.2
      (by decide) false

end ServerConnection